import Mathlib

/-!
Verification of the rate-limiting engine of this repository
(`src/utils/ratelimits/abc.py`, `src/utils/ratelimits/ip_bucket.py`).

The engine stores, per bucket instance and bucket key, a Redis sorted set of
"interaction" records (fresh UUID members whose score is the absolute expiry
timestamp `time() + time_period`) and a cooldown flag (a plain key given an
absolute expiry with `EXPIREAT`).  We embed the state of one
`(bucket, bucket_key)` pair shallowly: the sorted-set is the list of its
scores (every `zadd` uses a fresh UUID member, so each insert adds a new
element), and the cooldown flag is an optional absolute expiry.  Time is
modelled at integer granularity (whole seconds), so the `int(...)` truncation
in `start_cooldown` and the integer TTL arithmetic are exact.
-/

namespace RateLimits

/-- Bucket definition from `BucketBase.__init__`: limits are enforced as
`requests` per `time_period` seconds, with a `cooldown` penalty in seconds. -/
structure Bucket where
  requests : ℤ
  time_period : ℤ
  cooldown : ℤ
deriving DecidableEq

/-- State held in Redis for one `(bucket, bucket_key)` pair:
`interactions` is the list of scores (absolute expiry timestamps) of the
members of the `...-interaction` sorted set, and `cooldownExpiry` is the
absolute expiry given to the `...-cooldown` key by `EXPIREAT` (the key counts
as absent once `now` reaches the expiry), or `none` when the key was never
set. -/
structure KeyState where
  interactions : List ℤ
  cooldownExpiry : Option ℤ
deriving DecidableEq

/-- A fresh bucket key: no interaction records, no cooldown flag. -/
def emptyKeyState : KeyState := ⟨[], none⟩

/-- Redis `zremrangebyscore(redis_key, max=time(), min=0)` from
`get_remaining_requests`: removes the members whose score lies between `0`
and `now` inclusive, keeping the rest. -/
def pruneInteractions (es : List ℤ) (now : ℤ) : List ℤ :=
  es.filter fun e => decide (¬ (0 ≤ e ∧ e ≤ now))

/-- Embedding of `RedisBucketBase.get_remaining_requests`: prune the expired
entries, then return `self.requests - zcard` together with the store state
the call leaves behind. -/
def get_remaining_requests (b : Bucket) (s : KeyState) (now : ℤ) : ℤ × KeyState :=
  let pruned := pruneInteractions s.interactions now
  (b.requests - pruned.length, { s with interactions := pruned })

/-- Embedding of `RedisBucketBase.record_interaction`: `zadd` with a fresh
UUID member and score `time() + self.time_period` appends one new score. -/
def record_interaction (b : Bucket) (s : KeyState) (now : ℤ) : KeyState :=
  { s with interactions := s.interactions ++ [now + b.time_period] }

/-- Embedding of `RedisBucketBase.start_cooldown`: `set(key, 1)` followed by
`expireat(int(time() + self.cooldown))`.  On integer time the truncation is
the identity. -/
def start_cooldown (b : Bucket) (s : KeyState) (now : ℤ) : KeyState :=
  { s with cooldownExpiry := some (now + b.cooldown) }

/-- Embedding of `RedisBucketBase.get_cooldown`: if `get` finds no (live)
cooldown key, return `0`; otherwise return its remaining `ttl`, which for a
key expiring at `e` at current time `now < e` is `e - now`. -/
def get_cooldown (s : KeyState) (now : ℤ) : ℤ :=
  match s.cooldownExpiry with
  | none => 0
  | some e => if now < e then e - now else 0

/-- Outcome of `BucketBase.handle_request`: normal return, or the
`OnCooldownError` exception carrying the remaining cooldown seconds. -/
inductive Outcome
  | allowed
  | onCooldown (remaining : ℤ)
deriving DecidableEq

/-- Embedding of `BucketBase.handle_request`, threading the store state:
  1. if `get_cooldown > 0`, raise `OnCooldownError(cooldown_remaining)`;
  2. else if `get_remaining_requests <= 0`, `start_cooldown`, re-read
     `get_cooldown`, and raise `OnCooldownError` with that fresh value;
  3. else `record_interaction` and return normally. -/
def handle_request (b : Bucket) (s : KeyState) (now : ℤ) : Outcome × KeyState :=
  let cd := get_cooldown s now
  if 0 < cd then (.onCooldown cd, s)
  else
    let res := get_remaining_requests b s now
    if res.1 ≤ 0 then
      let s2 := start_cooldown b res.2 now
      (.onCooldown (get_cooldown s2 now), s2)
    else
      (.allowed, record_interaction b res.2 now)

/-- Embedding of `RedisBucketBase.get_reset_time`: the highest score in the
interaction set minus `now`, clamped at `0`; `0` when the set is empty. -/
def get_reset_time (s : KeyState) (now : ℤ) : ℤ :=
  match s.interactions.max? with
  | none => 0
  | some m => max 0 (m - now)

/-- Result of one decorated call (`BucketBase.__call__`'s inner `caller`):
either the wrapped handler's response annotated by `add_headers` (we keep the
`Requests-Reminding` and `Requests-Reset` values), or the 429 JSON rejection
annotated by `add_cooldown_headers` with the remaining cooldown. -/
inductive CallResult
  | allowed (remaining : ℤ) (reset : ℤ)
  | rejected (cooldownRemaining : ℤ)
deriving DecidableEq

/-- Embedding of the guarded call for one bucket key: run `handle_request`;
on `OnCooldownError` build the 429 response with the exception's remaining
value; otherwise the handler runs and `add_headers` re-reads
`get_remaining_requests` (pruning again) and `get_reset_time`. -/
def callAt (b : Bucket) (s : KeyState) (now : ℤ) : CallResult × KeyState :=
  match handle_request b s now with
  | (.onCooldown r, s1) => (.rejected r, s1)
  | (.allowed, s1) =>
    let res := get_remaining_requests b s1 now
    (.allowed res.1 (get_reset_time res.2 now), res.2)

/-- Number of times the wrapped handler (`func`) is awaited while producing
a given call result: once in the `else` branch of `caller`, zero times when
`OnCooldownError` was caught. -/
def handlerInvocations : CallResult → ℕ
  | .allowed _ _ => 1
  | .rejected _ => 0

/-- A sequence of guarded calls for the same bucket key at the given times,
threading the store state. -/
def runCalls (b : Bucket) (s : KeyState) : List ℤ → List CallResult × KeyState
  | [] => ([], s)
  | t :: ts =>
    let r := callAt b s t
    let rs := runCalls b r.2 ts
    (r.1 :: rs.1, rs.2)

/-- C2: with an active cooldown (`get_cooldown > 0`) the request is rejected
with exactly that remaining value and the store state is returned untouched:
no pruning, no count, no interaction record, no new cooldown trigger, and the
wrapped handler is not invoked. -/
theorem handle_request_active_cooldown (b : Bucket) (s : KeyState) (now : ℤ)
    (h : 0 < get_cooldown s now) :
    handle_request b s now = (.onCooldown (get_cooldown s now), s) ∧
    handlerInvocations (callAt b s now).1 = 0 := by
  constructor
  · simp [handle_request, h]
  · simp [callAt, handle_request, h, handlerInvocations]

/-- Witness for C2 at a concrete store state: cooldown flag expiring at 10,
current time 4, one live interaction record. -/
theorem handle_request_active_cooldown_witness :
    0 < get_cooldown ⟨[7], some 10⟩ 4 ∧
    handle_request ⟨2, 5, 6⟩ ⟨[7], some 10⟩ 4 =
      (.onCooldown (get_cooldown ⟨[7], some 10⟩ 4), ⟨[7], some 10⟩) ∧
    handlerInvocations (callAt ⟨2, 5, 6⟩ ⟨[7], some 10⟩ 4).1 = 0 := by
  refine ⟨by decide, ?_⟩
  exact handle_request_active_cooldown ⟨2, 5, 6⟩ ⟨[7], some 10⟩ 4 (by decide)

/-- C3: provided every stored expiry is nonnegative (which holds for every
record the code writes, since scores are `time() + time_period`),
`get_remaining_requests` removes exactly the records with expiry `≤ now` and
returns `requests` minus the count of the survivors. -/
theorem get_remaining_requests_prunes_and_counts (b : Bucket) (s : KeyState) (now : ℤ)
    (h : ∀ e ∈ s.interactions, 0 ≤ e) :
    (get_remaining_requests b s now).2.interactions
        = s.interactions.filter (fun e => decide (now < e)) ∧
    (get_remaining_requests b s now).1
        = b.requests - (s.interactions.filter (fun e => decide (now < e))).length := by
  have hfilter : pruneInteractions s.interactions now
      = s.interactions.filter (fun e => decide (now < e)) := by
    apply List.filter_congr
    intro e he
    have h0 : 0 ≤ e := h e he
    by_cases hlt : now < e
    · have h1 : ¬ (0 ≤ e ∧ e ≤ now) := by omega
      simp [hlt, h1]
    · have h1 : 0 ≤ e ∧ e ≤ now := by omega
      simp [hlt, h1]
  exact ⟨by simp [get_remaining_requests, hfilter],
    by simp [get_remaining_requests, hfilter]⟩

/-- Witness for C3: records expiring at 1, 5, 10 at current time 5 with
`requests = 4` leave only the record at 10 and report 3. -/
theorem get_remaining_requests_prunes_and_counts_witness :
    (∀ e ∈ ([1, 5, 10] : List ℤ), 0 ≤ e) ∧
    (get_remaining_requests ⟨4, 7, 3⟩ ⟨[1, 5, 10], none⟩ 5).2.interactions = [10] ∧
    (get_remaining_requests ⟨4, 7, 3⟩ ⟨[1, 5, 10], none⟩ 5).1 = 3 := by
  have h := get_remaining_requests_prunes_and_counts ⟨4, 7, 3⟩ ⟨[1, 5, 10], none⟩ 5
    (by decide)
  refine ⟨by decide, ?_, ?_⟩
  · rw [h.1]; decide
  · rw [h.2]; decide

/-- C7: `start_cooldown` sets the cooldown flag to expire exactly at
`now + cooldown` without touching the interaction records, and
`get_cooldown` returns 0 when no flag exists or the flag has expired, and
the remaining time-to-live `e - now` when the flag is live. -/
theorem cooldown_ops_spec (b : Bucket) (s : KeyState) (now : ℤ) :
    (start_cooldown b s now).cooldownExpiry = some (now + b.cooldown) ∧
    (start_cooldown b s now).interactions = s.interactions ∧
    (s.cooldownExpiry = none → get_cooldown s now = 0) ∧
    (∀ e, s.cooldownExpiry = some e → e ≤ now → get_cooldown s now = 0) ∧
    (∀ e, s.cooldownExpiry = some e → now < e → get_cooldown s now = e - now) := by
  refine ⟨rfl, rfl, ?_, ?_, ?_⟩
  · intro h; simp [get_cooldown, h]
  · intro e he hle
    have h1 : ¬ now < e := by omega
    simp [get_cooldown, he, h1]
  · intro e he hlt
    simp [get_cooldown, he, hlt]

/-- Witness for C7: triggering at time 3 with cooldown 4 sets expiry 7, a
flag expiring at 9 read at time 3 has 6 seconds left, and one expired at 2
reads as 0. -/
theorem cooldown_ops_spec_witness :
    (start_cooldown ⟨2, 5, 4⟩ ⟨[8], none⟩ 3).cooldownExpiry = some (3 + 4) ∧
    get_cooldown ⟨[8], some 9⟩ 3 = 9 - 3 ∧
    get_cooldown ⟨[8], some 2⟩ 3 = 0 := by
  refine ⟨(cooldown_ops_spec ⟨2, 5, 4⟩ ⟨[8], none⟩ 3).1, ?_, ?_⟩
  · exact (cooldown_ops_spec ⟨2, 5, 4⟩ ⟨[8], some 9⟩ 3).2.2.2.2 9 rfl (by decide)
  · exact (cooldown_ops_spec ⟨2, 5, 4⟩ ⟨[8], some 2⟩ 3).2.2.2.1 2 rfl (by decide)

/-- C1: with no active cooldown and an exhausted window (remaining after
pruning `≤ 0`), `handle_request` triggers the cooldown on the pruned state,
re-reads the remaining cooldown, and raises `OnCooldownError` with that
fresh value; the interaction set of the resulting state is exactly the
pruned set (no new record), and the wrapped handler is never invoked. -/
theorem handle_request_window_exhausted (b : Bucket) (s : KeyState) (now : ℤ)
    (hcd : ¬ 0 < get_cooldown s now)
    (hrem : (get_remaining_requests b s now).1 ≤ 0) :
    handle_request b s now =
      (.onCooldown
          (get_cooldown ⟨pruneInteractions s.interactions now, some (now + b.cooldown)⟩ now),
        ⟨pruneInteractions s.interactions now, some (now + b.cooldown)⟩) ∧
    handlerInvocations (callAt b s now).1 = 0 := by
  have hmain : handle_request b s now =
      (.onCooldown
          (get_cooldown ⟨pruneInteractions s.interactions now, some (now + b.cooldown)⟩ now),
        ⟨pruneInteractions s.interactions now, some (now + b.cooldown)⟩) := by
    simp only [handle_request, if_neg hcd, if_pos hrem]
    rfl
  refine ⟨hmain, ?_⟩
  simp [callAt, hmain, handlerInvocations]

/-- Witness for C1: `requests = 1`, one live record at time 3, no cooldown;
the call is rejected with the freshly triggered 5-second cooldown and no
record is added. -/
theorem handle_request_window_exhausted_witness :
    (¬ 0 < get_cooldown ⟨[20], none⟩ 3) ∧
    (get_remaining_requests ⟨1, 10, 5⟩ ⟨[20], none⟩ 3).1 ≤ 0 ∧
    handle_request ⟨1, 10, 5⟩ ⟨[20], none⟩ 3 =
      (.onCooldown (get_cooldown ⟨pruneInteractions [20] 3, some (3 + 5)⟩ 3),
        ⟨pruneInteractions [20] 3, some (3 + 5)⟩) ∧
    handlerInvocations (callAt ⟨1, 10, 5⟩ ⟨[20], none⟩ 3).1 = 0 := by
  have h := handle_request_window_exhausted ⟨1, 10, 5⟩ ⟨[20], none⟩ 3
    (by decide) (by decide)
  exact ⟨by decide, by decide, h.1, h.2⟩

/-- C8: each guarded call awaits the wrapped handler at most once, and zero
times whenever the call is rejected. -/
theorem handler_invoked_at_most_once (b : Bucket) (s : KeyState) (now : ℤ) :
    handlerInvocations (callAt b s now).1 ≤ 1 ∧
    (∀ r, (callAt b s now).1 = CallResult.rejected r →
      handlerInvocations (callAt b s now).1 = 0) := by
  constructor
  · cases (callAt b s now).1 <;> simp [handlerInvocations]
  · intro r hr
    rw [hr]
    rfl

/-- Witness for C8: a zero-capacity bucket rejects the very first call with
the 5-second cooldown and the handler is not invoked. -/
theorem handler_invoked_at_most_once_witness :
    (callAt ⟨0, 1, 5⟩ emptyKeyState 0).1 = CallResult.rejected 5 ∧
    handlerInvocations (callAt ⟨0, 1, 5⟩ emptyKeyState 0).1 = 0 := by
  refine ⟨by decide, ?_⟩
  exact (handler_invoked_at_most_once ⟨0, 1, 5⟩ emptyKeyState 0).2 5 (by decide)

/-- C9: at a fixed current time, a second `get_remaining_requests` with no
intervening `record_interaction` returns the same value and leaves the store
state exactly as the first call left it. -/
theorem get_remaining_requests_idempotent (b : Bucket) (s : KeyState) (now : ℤ) :
    get_remaining_requests b (get_remaining_requests b s now).2 now
      = get_remaining_requests b s now := by
  have hp : pruneInteractions (pruneInteractions s.interactions now) now
      = pruneInteractions s.interactions now := by
    simp [pruneInteractions, List.filter_filter]
  simp [get_remaining_requests, hp]

/-- Pruning removes nothing when every stored expiry is still in the
future. -/
lemma pruneInteractions_eq_self (es : List ℤ) (now : ℤ) (h : ∀ e ∈ es, now < e) :
    pruneInteractions es now = es := by
  rw [pruneInteractions, List.filter_eq_self]
  intro e he
  have := h e he
  simp
  omega

/-- One guarded call on a cooldown-free state whose records are all live and
whose window still has capacity: the handler runs, one record with expiry
`now + time_period` is appended, and the response reports the remaining
count after this call. -/
lemma callAt_clean_allowed (b : Bucket) (es : List ℤ) (t : ℤ)
    (hes : ∀ e ∈ es, t < e) (hrem : 0 < b.requests - (es.length : ℤ))
    (hP : 0 < b.time_period) :
    callAt b ⟨es, none⟩ t =
      (.allowed (b.requests - (es.length : ℤ) - 1)
          (get_reset_time ⟨es ++ [t + b.time_period], none⟩ t),
        ⟨es ++ [t + b.time_period], none⟩) := by
  have hprune : pruneInteractions es t = es := pruneInteractions_eq_self es t hes
  have hprune2 : pruneInteractions (es ++ [t + b.time_period]) t
      = es ++ [t + b.time_period] := by
    apply pruneInteractions_eq_self
    intro e he
    rcases List.mem_append.mp he with he | he
    · exact hes e he
    · rw [List.mem_singleton.mp he]
      omega
  have hhr : handle_request b ⟨es, none⟩ t = (.allowed, ⟨es ++ [t + b.time_period], none⟩) := by
    simp only [handle_request, get_cooldown, get_remaining_requests, hprune]
    rw [if_neg (by omega), if_neg (by omega)]
    rfl
  simp only [callAt, hhr, get_remaining_requests, hprune2]
  simp
  ring

/-- Starting from live records `es` and no cooldown, a sequence of calls that
all lie inside each other's windows and fit into the remaining capacity are
all allowed: the i-th reports `requests - es.length - i - 1` remaining, and
the final state holds `es` plus one record `t + time_period` per call, still
with no cooldown. -/
lemma runCalls_all_allowed (b : Bucket) :
    ∀ (ts es : List ℤ),
      (∀ t ∈ ts, ∀ e ∈ es, t < e) →
      (∀ x ∈ ts, ∀ y ∈ ts, x < y + b.time_period) →
      ((es.length : ℤ) + ts.length ≤ b.requests) →
      (∀ i, i < ts.length →
        ∃ rst, ((runCalls b ⟨es, none⟩ ts).1)[i]?
          = some (.allowed (b.requests - (es.length : ℤ) - i - 1) rst)) ∧
      (runCalls b ⟨es, none⟩ ts).2
        = ⟨es ++ ts.map (fun t => t + b.time_period), none⟩ := by
  intro ts
  induction ts with
  | nil =>
    intro es _ _ _
    constructor
    · intro i hi
      simp at hi
    · simp [runCalls]
  | cons t ts ih =>
    intro es h1 h2 h3
    have hes : ∀ e ∈ es, t < e := h1 t (List.mem_cons_self t ts)
    have hrem : 0 < b.requests - (es.length : ℤ) := by
      simp only [List.length_cons] at h3
      push_cast at h3
      omega
    have hP : 0 < b.time_period := by
      have := h2 t (List.mem_cons_self t ts) t (List.mem_cons_self t ts)
      omega
    have hc := callAt_clean_allowed b es t hes hrem hP
    have hrun : runCalls b ⟨es, none⟩ (t :: ts)
        = ((callAt b ⟨es, none⟩ t).1 :: (runCalls b (callAt b ⟨es, none⟩ t).2 ts).1,
          (runCalls b (callAt b ⟨es, none⟩ t).2 ts).2) := rfl
    have h1' : ∀ t1 ∈ ts, ∀ e ∈ es ++ [t + b.time_period], t1 < e := by
      intro t1 ht1 e he
      rcases List.mem_append.mp he with he | he
      · exact h1 t1 (List.mem_cons_of_mem t ht1) e he
      · rw [List.mem_singleton.mp he]
        exact h2 t1 (List.mem_cons_of_mem t ht1) t (List.mem_cons_self t ts)
    have h2' : ∀ x ∈ ts, ∀ y ∈ ts, x < y + b.time_period := by
      intro x hx y hy
      exact h2 x (List.mem_cons_of_mem t hx) y (List.mem_cons_of_mem t hy)
    have h3' : (((es ++ [t + b.time_period]).length : ℤ) + ts.length ≤ b.requests) := by
      simp at h3 ⊢
      omega
    have hih := ih (es ++ [t + b.time_period]) h1' h2' h3'
    constructor
    · intro i hi
      cases i with
      | zero =>
        refine ⟨get_reset_time ⟨es ++ [t + b.time_period], none⟩ t, ?_⟩
        rw [hrun, hc]
        simp
      | succ i' =>
        have hi' : i' < ts.length := by
          simp only [List.length_cons] at hi
          omega
        obtain ⟨rst, hr⟩ := hih.1 i' hi'
        have heq : b.requests - (((es ++ [t + b.time_period]).length : ℕ) : ℤ) - i' - 1
            = b.requests - (es.length : ℤ) - (i' + 1 : ℕ) - 1 := by
          simp only [List.length_append, List.length_singleton]
          push_cast
          ring
        rw [heq] at hr
        refine ⟨rst, ?_⟩
        rw [hrun, hc]
        simpa using hr
    · rw [hrun, hc]
      simp only
      rw [hih.2]
      simp

/-- C4: from a fresh key, with `ts` pairwise inside one window and
`ts.length = requests`, every one of the first `requests` calls is allowed
with reported remaining decreasing from `requests - 1` down to `0`; the next
call inside the window is rejected with the full cooldown and sets the
cooldown flag to expire at `t' + cooldown`; and every call during that
cooldown is rejected with the remaining cooldown `t' + cooldown - u`, which
is non-increasing in the call time, leaving the state untouched. -/
theorem fresh_bucket_scenario (b : Bucket) (ts : List ℤ) (t' : ℤ)
    (hC : 0 < b.cooldown)
    (hlen : (ts.length : ℤ) = b.requests)
    (hwin : ∀ x ∈ ts ++ [t'], ∀ y ∈ ts ++ [t'], x < y + b.time_period) :
    (∀ i, i < ts.length →
      ∃ rst, ((runCalls b emptyKeyState ts).1)[i]?
        = some (.allowed (b.requests - (i : ℤ) - 1) rst)) ∧
    callAt b (runCalls b emptyKeyState ts).2 t'
      = (.rejected b.cooldown,
        ⟨ts.map (fun t => t + b.time_period), some (t' + b.cooldown)⟩) ∧
    (∀ u, t' ≤ u → u < t' + b.cooldown →
      callAt b ⟨ts.map (fun t => t + b.time_period), some (t' + b.cooldown)⟩ u
        = (.rejected (t' + b.cooldown - u),
          ⟨ts.map (fun t => t + b.time_period), some (t' + b.cooldown)⟩)) ∧
    (∀ u₁ u₂, t' ≤ u₁ → u₁ ≤ u₂ → u₂ < t' + b.cooldown →
      t' + b.cooldown - u₂ ≤ t' + b.cooldown - u₁) := by
  have h2 : ∀ x ∈ ts, ∀ y ∈ ts, x < y + b.time_period := by
    intro x hx y hy
    exact hwin x (List.mem_append_left _ hx) y (List.mem_append_left _ hy)
  have h3 : ((([] : List ℤ).length : ℤ) + ts.length ≤ b.requests) := by
    simp [hlen]
  have hall := runCalls_all_allowed b ts [] (by intro t ht e he; simp at he) h2 h3
  refine ⟨?_, ?_, ?_, ?_⟩
  · intro i hi
    obtain ⟨rst, hr⟩ := hall.1 i hi
    refine ⟨rst, ?_⟩
    simpa [emptyKeyState] using hr
  · have hstate : (runCalls b emptyKeyState ts).2
        = ⟨ts.map (fun t => t + b.time_period), none⟩ := by
      have := hall.2
      simpa [emptyKeyState] using this
    rw [hstate]
    have hmem : ∀ e ∈ ts.map (fun t => t + b.time_period), t' < e := by
      intro e he
      obtain ⟨a, ha, rfl⟩ := List.mem_map.mp he
      exact hwin t' (List.mem_append_right _ (List.mem_singleton_self t'))
        a (List.mem_append_left _ ha)
    have hprune := pruneInteractions_eq_self _ t' hmem
    have hcount : ((ts.map (fun t => t + b.time_period)).length : ℤ) = b.requests := by
      rw [List.length_map]
      exact hlen
    simp only [callAt, handle_request, get_cooldown, get_remaining_requests, hprune]
    rw [if_neg (by omega), if_pos (by omega)]
    simp only [start_cooldown]
    rw [if_pos (by omega)]
    congr 1
    ring
  · intro u hu1 hu2
    have hcd : get_cooldown ⟨ts.map (fun t => t + b.time_period), some (t' + b.cooldown)⟩ u
        = t' + b.cooldown - u := by
      simp only [get_cooldown]
      rw [if_pos (by omega)]
    simp only [callAt, handle_request, hcd]
    rw [if_pos (by omega)]
  · intro u₁ u₂ h1 h2 h3
    omega

/-- Witness for C4 with the spec's concrete scenario (`requests = 2`,
`time_period = 10`, `cooldown = 5`, calls at times 0 and 1): the third call
at time 2 is rejected with the full 5-second cooldown, and calls at times 4
and 6 during the cooldown see 3 and then 1 seconds remaining with the state
untouched. -/
theorem fresh_bucket_scenario_witness :
    ((([0, 1] : List ℤ).length : ℤ) = (2 : ℤ)) ∧
    callAt ⟨2, 10, 5⟩ (runCalls ⟨2, 10, 5⟩ emptyKeyState [0, 1]).2 2
      = (.rejected 5, ⟨[10, 11], some 7⟩) ∧
    callAt ⟨2, 10, 5⟩ ⟨[10, 11], some 7⟩ 4 = (.rejected 3, ⟨[10, 11], some 7⟩) ∧
    callAt ⟨2, 10, 5⟩ ⟨[10, 11], some 7⟩ 6 = (.rejected 1, ⟨[10, 11], some 7⟩) := by
  have h := fresh_bucket_scenario ⟨2, 10, 5⟩ [0, 1] 2 (by decide) (by decide) (by decide)
  refine ⟨by decide, ?_, ?_, ?_⟩
  · rw [h.2.1]
    decide
  · have h3 := h.2.2.1 4 (by decide) (by decide)
    rw [show (⟨[10, 11], some 7⟩ : KeyState)
      = ⟨([0, 1] : List ℤ).map (fun t => t + (⟨2, 10, 5⟩ : Bucket).time_period),
          some (2 + (⟨2, 10, 5⟩ : Bucket).cooldown)⟩ from by decide]
    rw [h3]
    decide
  · have h3 := h.2.2.1 6 (by decide) (by decide)
    rw [show (⟨[10, 11], some 7⟩ : KeyState)
      = ⟨([0, 1] : List ℤ).map (fun t => t + (⟨2, 10, 5⟩ : Bucket).time_period),
          some (2 + (⟨2, 10, 5⟩ : Bucket).cooldown)⟩ from by decide]
    rw [h3]
    decide

/-- Client connection metadata attached to a request: the starlette
`Address` named tuple `(host, port)`. -/
structure Address where
  host : String
  port : ℕ
deriving DecidableEq

/-- The part of the request the IP bucket reads: `request.client`, which is
`None` when no underlying transport identity exists. -/
structure Request where
  client : Option Address
deriving DecidableEq

/-- Python `ValueError`, the exception `get_bucket_key` raises. -/
inductive PyError
  | valueError
deriving DecidableEq

/-- Embedding of `IPRedisBucket.get_bucket_key`.  When `request.client` is
`None`, it raises `ValueError("Unable to obtain client's IP.")`.  Otherwise
the source executes `host_address, _ = request.client.host`, which
iterable-unpacks the host STRING character by character: it raises
`ValueError` (too many / not enough values to unpack) unless the host has
exactly two characters, in which case `host_address` is bound to the first
character alone. -/
def ip_get_bucket_key (req : Request) : Except PyError String :=
  match req.client with
  | none => .error .valueError
  | some c =>
    match c.host.toList with
    | [a, _b] => .ok (String.mk [a])
    | _ => .error .valueError

/-- Outcome of the decorator's inner `caller`: the `AttributeError` raised
when the `request` keyword argument is missing, an uncaught exception
propagating from `get_bucket_key` (only `OnCooldownError` is caught), or a
normal guarded response. -/
inductive CallerOutcome
  | attributeError
  | configError
  | response (r : CallResult)

/-- Embedding of `BucketBase.__call__`'s inner `caller` for an IP bucket,
acting on the whole store (one `KeyState` per bucket key).  A missing
`request` keyword argument raises `AttributeError` before any key
resolution or store access; a `ValueError` from `get_bucket_key` propagates
uncaught; otherwise `handle_request` and the header logic run against the
resolved key's state. -/
def ipCaller (b : Bucket) (store : String → KeyState) (now : ℤ)
    (request : Option Request) : CallerOutcome × (String → KeyState) :=
  match request with
  | none => (.attributeError, store)
  | some req =>
    match ip_get_bucket_key req with
    | .error _ => (.configError, store)
    | .ok key =>
      let r := callAt b (store key) now
      (.response r.1, fun k => if k = key then r.2 else store k)

/-- C10: calling a guard-decorated route without a `request` keyword
argument raises `AttributeError` and leaves the whole store untouched: no
key resolution, no store read or write, no handler invocation. -/
theorem caller_without_request_kwarg (b : Bucket) (store : String → KeyState) (now : ℤ) :
    ipCaller b store now none = (.attributeError, store) := rfl

/-- C6: the address-keyed provider does NOT return the caller's address when
connection metadata is present.  Because `host_address, _ =
request.client.host` unpacks the host string itself, a client with host
"127.0.0.1" makes `get_bucket_key` raise `ValueError`, and a two-character
host yields only its first character as the key; the missing-metadata case
does raise `ValueError`, and the exception propagates out of the decorated
caller as a fault rather than being converted into a rejection response. -/
theorem ip_get_bucket_key_unpack_bug :
    ip_get_bucket_key ⟨some ⟨"127.0.0.1", 8000⟩⟩ = .error .valueError ∧
    ip_get_bucket_key ⟨some ⟨"ab", 1⟩⟩ = .ok "a" ∧
    ip_get_bucket_key ⟨none⟩ = .error .valueError ∧
    (∀ b store now,
      ipCaller b store now (some ⟨some ⟨"127.0.0.1", 8000⟩⟩) = (.configError, store)) := by
  refine ⟨rfl, rfl, rfl, ?_⟩
  intro b store now
  rfl

/-- Process-local bucket numbering induced by
`BucketBase._bucket_counter = itertools.count(0)`: the class attribute is
created afresh in every started process, so the i-th bucket instance
constructed in a process receives `bucket_no = i` regardless of which
process performed the construction. -/
def bucket_no (process : ℕ) (constructionIndex : ℕ) : ℕ := constructionIndex

/-- Embedding of `RedisBucketBase.get_redis_key`: the f-string
`f"bucket-{self.bucket_no}-{bucket_key}-{name}"`. -/
def get_redis_key (bucketNo : ℕ) (bucket_key name : String) : String :=
  "bucket-" ++ toString bucketNo ++ "-" ++ bucket_key ++ "-" ++ name

/-- Accumulator-irrelevance for the core decimal printer: the accumulator is
only ever appended to the produced digits. -/
lemma toDigitsCore_append (fuel : ℕ) :
    ∀ (n : ℕ) (ds : List Char),
      Nat.toDigitsCore 10 fuel n ds = Nat.toDigitsCore 10 fuel n [] ++ ds := by
  induction fuel with
  | zero => intro n ds; simp [Nat.toDigitsCore]
  | succ f ih =>
    intro n ds
    simp only [Nat.toDigitsCore]
    by_cases h : n / 10 = 0
    · simp [h]
    · simp only [if_neg h]
      rw [ih (n / 10) (Nat.digitChar (n % 10) :: ds),
        ih (n / 10) [Nat.digitChar (n % 10)]]
      simp

/-- Fuel-free decimal digit list of a natural number, most significant digit
first. -/
def reprChars (n : ℕ) : List Char :=
  if h : n < 10 then [Nat.digitChar n]
  else reprChars (n / 10) ++ [Nat.digitChar (n % 10)]
termination_by n
decreasing_by exact Nat.div_lt_self (by omega) (by omega)

lemma reprChars_lt (n : ℕ) (h : n < 10) : reprChars n = [Nat.digitChar n] := by
  rw [reprChars]
  simp [h]

lemma reprChars_ge (n : ℕ) (h : ¬ n < 10) :
    reprChars n = reprChars (n / 10) ++ [Nat.digitChar (n % 10)] := by
  conv_lhs => rw [reprChars]
  simp [h]

/-- With enough fuel, the core printer computes `reprChars`. -/
lemma toDigitsCore_eq_reprChars (fuel : ℕ) :
    ∀ n : ℕ, 0 < fuel → n < 10 ^ fuel →
      Nat.toDigitsCore 10 fuel n [] = reprChars n := by
  induction fuel with
  | zero => intro n h; omega
  | succ f ih =>
    intro n _ hlt
    simp only [Nat.toDigitsCore]
    by_cases h : n / 10 = 0
    · have hn : n < 10 := by omega
      rw [if_pos h, reprChars_lt n hn, Nat.mod_eq_of_lt hn]
    · have h10 : ¬ n < 10 := by omega
      have hf : 0 < f := by
        rcases Nat.eq_zero_or_pos f with hf0 | hf0
        · rw [hf0] at hlt
          norm_num at hlt
          omega
        · exact hf0
      have hdiv : n / 10 < 10 ^ f := by
        rw [pow_succ] at hlt
        exact (Nat.div_lt_iff_lt_mul (by omega)).mpr hlt
      rw [if_neg h, toDigitsCore_append, ih (n / 10) hf hdiv, reprChars_ge n h10]

/-- Decimal decoding of a digit-character list. -/
def decodeDigits (l : List Char) : ℕ :=
  l.foldl (fun a c => 10 * a + (c.toNat - 48)) 0

lemma decodeDigits_append_singleton (l : List Char) (c : Char) :
    decodeDigits (l ++ [c]) = 10 * decodeDigits l + (c.toNat - 48) := by
  simp [decodeDigits, List.foldl_append]

lemma decode_digitChar (m : ℕ) (h : m < 10) : (Nat.digitChar m).toNat - 48 = m := by
  interval_cases m <;> rfl

/-- Decoding is a left inverse of `reprChars`. -/
lemma decode_reprChars (n : ℕ) : decodeDigits (reprChars n) = n := by
  induction n using Nat.strong_induction_on with
  | _ n ih =>
    by_cases h : n < 10
    · rw [reprChars_lt n h]
      have := decode_digitChar n h
      simp [decodeDigits]
      omega
    · rw [reprChars_ge n h, decodeDigits_append_singleton,
        ih (n / 10) (Nat.div_lt_self (by omega) (by omega)),
        decode_digitChar (n % 10) (Nat.mod_lt n (by omega))]
      omega

/-- Underlying characters of `Nat.repr`. -/
lemma repr_data (n : ℕ) : (Nat.repr n).data = reprChars n := by
  have hfuel : n < 10 ^ (n + 1) := by
    calc n < 10 ^ n := Nat.lt_pow_self (by omega) n
    _ ≤ 10 ^ (n + 1) := Nat.pow_le_pow_right (by omega) (by omega)
  show Nat.toDigitsCore 10 (n + 1) n [] = reprChars n
  exact toDigitsCore_eq_reprChars (n + 1) n (by omega) hfuel

/-- Distinct naturals have distinct decimal representations. -/
lemma repr_data_inj (i j : ℕ) (h : (Nat.repr i).data = (Nat.repr j).data) : i = j := by
  rw [repr_data, repr_data] at h
  calc i = decodeDigits (reprChars i) := (decode_reprChars i).symm
  _ = decodeDigits (reprChars j) := by rw [h]
  _ = j := decode_reprChars j

/-- Redis keys built by `get_redis_key` determine the bucket number when the
bucket key and name agree. -/
lemma get_redis_key_inj_left (i j : ℕ) (key name : String)
    (h : get_redis_key i key name = get_redis_key j key name) : i = j := by
  have hts : ∀ m : ℕ, (toString m : String) = Nat.repr m := fun m => rfl
  have hd := congrArg String.data h
  simp only [get_redis_key, hts, String.data_append, List.append_assoc,
    List.append_cancel_left_eq] at hd
  exact repr_data_inj i j (List.append_cancel_right hd)

/-- C5 counterexample: the first bucket constructed in each of two
independently started processes (process ids 0 and 1) gets the same
`bucket_no` and therefore the same redis key for the same bucket key and
name, because `itertools.count(0)` restarts in every process. -/
theorem bucket_no_cross_process_collision :
    (0 : ℕ) ≠ 1 ∧
    bucket_no 0 0 = bucket_no 1 0 ∧
    get_redis_key (bucket_no 0 0) "1.2.3.4" "interaction"
      = get_redis_key (bucket_no 1 0) "1.2.3.4" "interaction" :=
  ⟨by decide, rfl, rfl⟩

/-- C5 (amended): within a single process, distinct bucket instances receive
distinct `bucket_no` values, and hence their store keys differ for the same
bucket key and name; cross-process uniqueness does not hold. -/
theorem bucket_no_unique_within_process (p i j : ℕ) (key name : String)
    (hij : i ≠ j) :
    bucket_no p i ≠ bucket_no p j ∧
    get_redis_key (bucket_no p i) key name ≠ get_redis_key (bucket_no p j) key name :=
  ⟨hij, fun h => hij (get_redis_key_inj_left i j key name h)⟩

/-- Witness for the amended C5 at concrete buckets 0 and 1 of one process. -/
theorem bucket_no_unique_within_process_witness :
    bucket_no 0 0 ≠ bucket_no 0 1 ∧
    get_redis_key (bucket_no 0 0) "1.2.3.4" "interaction"
      ≠ get_redis_key (bucket_no 0 1) "1.2.3.4" "interaction" :=
  bucket_no_unique_within_process 0 0 1 "1.2.3.4" "interaction" (by decide)

end RateLimits
